import Mathlib

deriving instance DecidableEq for Except

/-!
Verification of the team / membership / join-request domain of the
flying-build backend.

The definitions below are a shallow embedding of
`src/apps/team/services/team.py` (class `TeamService`) together with the
entities it manipulates (`src/models/team.py`, `src/models/team_member.py`,
`src/models/join_request.py`, `src/models/user.py`, `src/core/types.py`).
The database session is modelled as an explicit state value (`DB`); each
service method becomes a function from the state to `Except ServiceError`
of its result (plus the successor state for the mutating methods).  A
business exception raised in Python is an `Except.error`; since every
entry point runs in a single transaction that rolls back on failure, an
error result leaves the caller's state untouched by construction.

`TeamModel` in `src/models/team.py` declares no `status` column, although
the service reads and writes `team.status` throughout and the migration
`2026-01-17-17_36.py` adds the `status` enum column to the `teams` table.
The embedding of the operational logic therefore gives the team row the
`status` field defined by the storage schema (the migration); the
discrepancy with the declared ORM entity is modelled separately below
(`DeclaredTeamRow` and friends).
-/

namespace FlyingBuild

/-- Team lifecycle status, from `core/types.py` (`TeamStatus`). -/
inductive TeamStatus where
  | ACTIVE
  | DELETED
deriving DecidableEq

/-- Role of a user inside a team, from `core/types.py` (`TeamRole`). -/
inductive TeamRole where
  | OWNER
  | ADMIN
  | MEMBER
deriving DecidableEq

/-- Status of a join request, from `core/types.py` (`JoinRequestStatus`). -/
inductive JoinRequestStatus where
  | PENDING
  | APPROVED
  | DECLINED
deriving DecidableEq

/-- The fields of `UserModel` that the team service reads. -/
structure UserModel where
  id : Nat
  name : String
  username : String
  email : String
deriving DecidableEq

/-- A row of the `teams` table as the storage schema defines it: the columns
declared on `TeamModel` plus the `status` column added by migration
`2026-01-17-17_36.py` (see the file comment above). -/
structure TeamModel where
  id : Nat
  owner_id : Nat
  name : String
  description : Option String
  team_code : String
  is_active : Bool
  status : TeamStatus
  created_at : Nat
deriving DecidableEq

/-- A row of `team_members`, from `src/models/team_member.py`. -/
structure TeamMemberModel where
  id : Nat
  team_id : Nat
  user_id : Nat
  role : TeamRole
deriving DecidableEq

/-- A row of `join_requests`, from `src/models/join_request.py`. -/
structure JoinRequestModel where
  id : Nat
  team_id : Nat
  requested_by : Nat
  status : JoinRequestStatus
  reviewed_by : Option Nat
  reviewed_at : Option Nat
  created_at : Nat
deriving DecidableEq

/-- The persistent store seen by one transaction.  `nextId` models the
storage-assigned primary key for newly inserted rows. -/
structure DB where
  teams : List TeamModel
  members : List TeamMemberModel
  joinRequests : List JoinRequestModel
  users : List UserModel
  nextId : Nat
deriving DecidableEq

/-- The exceptions of `src/apps/team/exception.py` raised by the service,
plus `BadRequestError` from `core.exceptions`, plus two storage-level
outcomes: `IntegrityError` models a unique-constraint violation raised by
the store and not caught by the service, and `BrokenReference` marks a
joined row missing in violation of a foreign key (unreachable when the
store enforces its FKs; the Python code would fail with `AttributeError`
there). -/
inductive ServiceError where
  | TeamNotFound
  | UnauthorizedTeamAccess
  | TeamDeactivated
  | TeamMemberNotFound
  | CannotModifyOwner
  | InvalidTeamCode
  | DuplicateJoinRequest
  | UserAlreadyMember
  | JoinRequestNotFound
  | BadRequestError
  | IntegrityError
  | BrokenReference
deriving DecidableEq

/-- Projection returned by the team endpoints (`TeamResponse` in
`src/apps/team/schemas/response.py`). -/
structure TeamResponse where
  id : Nat
  owner_id : Nat
  name : String
  description : Option String
  team_code : String
  is_active : Bool
  role : TeamRole
  created_by : String
  created_at : Nat
  member_count : Nat
deriving DecidableEq

/-- Projection returned by `list_team_members`. -/
structure TeamMemberResponse where
  user_id : Nat
  name : String
  username : String
  email : String
  role : TeamRole
deriving DecidableEq

/-- Projection returned by the join-request endpoints. -/
structure JoinRequestResponse where
  id : Nat
  team_id : Nat
  team_name : String
  requested_by : Nat
  requester_name : String
  requester_email : String
  status : JoinRequestStatus
  reviewed_by : Option Nat
  reviewer_name : Option String
  reviewed_at : Option Nat
  created_at : Nat
deriving DecidableEq

/-- Replace the first element satisfying `p` by its image under `f`,
modelling an ORM mutation of the single row returned by a `scalar` query. -/
def updateFirst (p : α → Bool) (f : α → α) : List α → List α
  | [] => []
  | x :: xs => if p x then f x :: xs else x :: updateFirst p f xs

/-- Model of `session.scalar(select(UserModel).where(UserModel.id == uid))`. -/
def userById (db : DB) (uid : Nat) : Option UserModel :=
  db.users.find? (fun u => u.id == uid)

/-- Embedding of `TeamService._validate_team_membership`. -/
def validate_team_membership (db : DB) (team_id user_id : Nat) :
    Except ServiceError TeamMemberModel :=
  match db.members.find? (fun m => m.team_id == team_id && m.user_id == user_id) with
  | none => .error .UnauthorizedTeamAccess
  | some team_member => .ok team_member

/-- Embedding of `TeamService._validate_team_role`. -/
def validate_team_role (db : DB) (team_id user_id : Nat)
    (required_roles : List TeamRole) : Except ServiceError TeamMemberModel :=
  match validate_team_membership db team_id user_id with
  | .error e => .error e
  | .ok team_member =>
      if required_roles.contains team_member.role then .ok team_member
      else .error .UnauthorizedTeamAccess

/-- Embedding of `TeamService._check_team_not_deleted` (over the storage
schema, where the `status` column exists). -/
def check_team_not_deleted (team : TeamModel) : Except ServiceError Unit :=
  if team.status == TeamStatus.DELETED then .error .TeamNotFound else .ok ()

/-- Embedding of `TeamService.get_team_by_id`.  The source queries the team
twice (first with `load_only`, then reloading all columns after the
membership check); both reads see the same row inside one transaction, so a
single lookup is used, preserving the order of the observable checks:
team existence, membership, soft-delete masking, deactivation. -/
def get_team_by_id (db : DB) (team_id user_id : Nat) :
    Except ServiceError TeamResponse :=
  match db.teams.find? (fun t => t.id == team_id) with
  | none => .error .TeamNotFound
  | some team =>
    match db.members.find? (fun m => m.team_id == team_id && m.user_id == user_id) with
    | none => .error .UnauthorizedTeamAccess
    | some team_member =>
      match check_team_not_deleted team with
      | .error e => .error e
      | .ok _ =>
        if !team.is_active && team_member.role == TeamRole.MEMBER then
          .error .TeamDeactivated
        else
          let owner := userById db team.owner_id
          let created_by :=
            if team_member.role == TeamRole.OWNER then "You"
            else
              match owner with
              | some o => o.name
              | none => ""
          let member_count := (db.members.filter (fun m => m.team_id == team_id)).length
          .ok { id := team.id, owner_id := team.owner_id, name := team.name,
                description := team.description, team_code := team.team_code,
                is_active := team.is_active, role := team_member.role,
                created_by := created_by, created_at := team.created_at,
                member_count := member_count }

/-- Payload of `update_team`: `none` means the field was absent from the
request (`UpdateTeamRequest` with optional fields). -/
structure UpdateTeamRequest where
  name : Option String
  description : Option String
deriving DecidableEq

/-- Embedding of `TeamService.update_team`. -/
def update_team (db : DB) (team_id user_id : Nat) (data : UpdateTeamRequest) :
    Except ServiceError (DB × TeamResponse) :=
  match db.teams.find? (fun t => t.id == team_id) with
  | none => .error .TeamNotFound
  | some team =>
    match check_team_not_deleted team with
    | .error e => .error e
    | .ok _ =>
      match validate_team_role db team_id user_id [TeamRole.OWNER, TeamRole.ADMIN] with
      | .error e => .error e
      | .ok team_member =>
        let team1 :=
          match data.name with
          | some n => { team with name := n }
          | none => team
        let team2 :=
          match data.description with
          | some d => { team1 with description := some d }
          | none => team1
        let owner := userById db team.owner_id
        let created_by :=
          if team_member.role == TeamRole.OWNER then "You"
          else
            match owner with
            | some o => o.name
            | none => ""
        let member_count := (db.members.filter (fun m => m.team_id == team_id)).length
        .ok ({ db with teams := updateFirst (fun t => t.id == team_id) (fun _ => team2) db.teams },
             { id := team2.id, owner_id := team2.owner_id, name := team2.name,
               description := team2.description, team_code := team2.team_code,
               is_active := team2.is_active, role := team_member.role,
               created_by := created_by, created_at := team2.created_at,
               member_count := member_count })

/-- Embedding of `TeamService.delete_team` (soft delete: sets `status` to
`DELETED`; notably it performs no deleted-state check of its own). -/
def delete_team (db : DB) (team_id owner_id : Nat) : Except ServiceError DB :=
  match db.teams.find? (fun t => t.id == team_id) with
  | none => .error .TeamNotFound
  | some _ =>
    match validate_team_role db team_id owner_id [TeamRole.OWNER] with
    | .error e => .error e
    | .ok _ =>
      .ok { db with
            teams := updateFirst (fun t => t.id == team_id)
              (fun t => { t with status := TeamStatus.DELETED }) db.teams }

/-- Embedding of `TeamService.list_team_members`. -/
def list_team_members (db : DB) (team_id user_id : Nat) :
    Except ServiceError (List TeamMemberResponse) :=
  match db.teams.find? (fun t => t.id == team_id) with
  | none => .error .TeamNotFound
  | some team =>
    match check_team_not_deleted team with
    | .error e => .error e
    | .ok _ =>
      match validate_team_membership db team_id user_id with
      | .error e => .error e
      | .ok _ =>
        .ok ((db.members.filter (fun m => m.team_id == team_id)).map (fun m =>
          { user_id := m.user_id,
            name := ((userById db m.user_id).map (fun u => u.name)).getD "",
            username := ((userById db m.user_id).map (fun u => u.username)).getD "",
            email := ((userById db m.user_id).map (fun u => u.email)).getD "",
            role := m.role }))

/-- Embedding of `TeamService.promote_to_admin`; `user_id` is the target
taken from `PromoteToAdminRequest.user_id`, `owner_id` the caller. -/
def promote_to_admin (db : DB) (team_id user_id owner_id : Nat) :
    Except ServiceError DB :=
  match db.teams.find? (fun t => t.id == team_id) with
  | none => .error .TeamNotFound
  | some team =>
    match check_team_not_deleted team with
    | .error e => .error e
    | .ok _ =>
      match validate_team_role db team_id owner_id [TeamRole.OWNER] with
      | .error e => .error e
      | .ok _ =>
        if user_id == owner_id then .error .CannotModifyOwner
        else
          match db.members.find? (fun m => m.team_id == team_id && m.user_id == user_id) with
          | none => .error .TeamMemberNotFound
          | some team_member =>
            if team_member.role == TeamRole.OWNER then .error .CannotModifyOwner
            else
              .ok { db with
                    members := updateFirst
                      (fun m => m.team_id == team_id && m.user_id == user_id)
                      (fun m => { m with role := TeamRole.ADMIN }) db.members }

/-- Embedding of `TeamService.demote_from_admin`. -/
def demote_from_admin (db : DB) (team_id user_id owner_id : Nat) :
    Except ServiceError DB :=
  match db.teams.find? (fun t => t.id == team_id) with
  | none => .error .TeamNotFound
  | some team =>
    match check_team_not_deleted team with
    | .error e => .error e
    | .ok _ =>
      match validate_team_role db team_id owner_id [TeamRole.OWNER] with
      | .error e => .error e
      | .ok _ =>
        if user_id == owner_id then .error .CannotModifyOwner
        else
          match db.members.find? (fun m => m.team_id == team_id && m.user_id == user_id) with
          | none => .error .TeamMemberNotFound
          | some team_member =>
            if team_member.role == TeamRole.OWNER then .error .CannotModifyOwner
            else
              .ok { db with
                    members := updateFirst
                      (fun m => m.team_id == team_id && m.user_id == user_id)
                      (fun m => { m with role := TeamRole.MEMBER }) db.members }

/-- Embedding of `TeamService.remove_member_from_team`: deletes every
`APPROVED` join request of the (team, user) pair and the membership row
itself (SQL `DELETE ... WHERE` removes every matching row). -/
def remove_member_from_team (db : DB) (team_id user_id owner_id : Nat) :
    Except ServiceError DB :=
  match db.teams.find? (fun t => t.id == team_id) with
  | none => .error .TeamNotFound
  | some team =>
    match check_team_not_deleted team with
    | .error e => .error e
    | .ok _ =>
      match validate_team_role db team_id owner_id [TeamRole.OWNER] with
      | .error e => .error e
      | .ok _ =>
        if user_id == owner_id then .error .CannotModifyOwner
        else
          match db.members.find? (fun m => m.team_id == team_id && m.user_id == user_id) with
          | none => .error .TeamMemberNotFound
          | some team_member =>
            if team_member.role == TeamRole.OWNER then .error .CannotModifyOwner
            else
              .ok { db with
                    joinRequests := db.joinRequests.filter (fun r =>
                      !(r.team_id == team_id && r.requested_by == user_id &&
                        r.status == JoinRequestStatus.APPROVED)),
                    members := db.members.filter (fun m =>
                      !(m.team_id == team_id && m.user_id == user_id)) }

/-- Build the `JoinRequestResponse` that `create_join_request` returns for a
freshly inserted row (`reviewer_name` is `None` there in the source). -/
def join_request_response (team : TeamModel) (user : UserModel)
    (row : JoinRequestModel) : JoinRequestResponse :=
  { id := row.id, team_id := row.team_id, team_name := team.name,
    requested_by := row.requested_by, requester_name := user.name,
    requester_email := user.email, status := row.status,
    reviewed_by := row.reviewed_by, reviewer_name := none,
    reviewed_at := row.reviewed_at, created_at := row.created_at }

/-- Modelled from the spec: the storage flush of a new PENDING join request
against the partial unique index `uq_join_request_team_user_pending`.  The
index is named in the comment of `src/models/join_request.py`, but the
migration creating it is not in the repository, so its behaviour is taken
from the spec: at most one PENDING request per (team, requester) pair; an
insert violating it fails with a storage-level `IntegrityError`, which
`create_join_request` contains no handler for.  `now` stands for the
storage-assigned `created_at` timestamp. -/
def flush_pending_insert (db : DB) (team_id requested_by now : Nat) :
    Except ServiceError (DB × JoinRequestModel) :=
  match db.joinRequests.find? (fun r =>
      r.team_id == team_id && r.requested_by == requested_by &&
      r.status == JoinRequestStatus.PENDING) with
  | some _ => .error .IntegrityError
  | none =>
    let row : JoinRequestModel :=
      { id := db.nextId, team_id := team_id, requested_by := requested_by,
        status := JoinRequestStatus.PENDING, reviewed_by := none,
        reviewed_at := none, created_at := now }
    .ok ({ db with joinRequests := db.joinRequests ++ [row], nextId := db.nextId + 1 }, row)

/-- The read-only prefix of `TeamService.create_join_request`: resolve the
team by code, mask deleted teams as `InvalidTeamCode`, then the two ordered
checks — duplicate PENDING request first, existing membership second. -/
def create_join_request_checks (db : DB) (team_code : String) (user_id : Nat) :
    Except ServiceError TeamModel :=
  match db.teams.find? (fun t => t.team_code == team_code) with
  | none => .error .InvalidTeamCode
  | some team =>
    if team.status == TeamStatus.DELETED then .error .InvalidTeamCode
    else
      match db.joinRequests.find? (fun r =>
          r.team_id == team.id && r.requested_by == user_id &&
          r.status == JoinRequestStatus.PENDING) with
      | some _ => .error .DuplicateJoinRequest
      | none =>
        match db.members.find? (fun m => m.team_id == team.id && m.user_id == user_id) with
        | some _ => .error .UserAlreadyMember
        | none => .ok team

/-- Embedding of `TeamService.create_join_request`: the ordered checks
followed by the insert and flush of the new PENDING row. -/
def create_join_request (db : DB) (team_code : String) (user : UserModel)
    (now : Nat) : Except ServiceError (DB × JoinRequestResponse) :=
  match create_join_request_checks db team_code user.id with
  | .error e => .error e
  | .ok team =>
    match flush_pending_insert db team.id user.id now with
    | .error e => .error e
    | .ok (db1, row) => .ok (db1, join_request_response team user row)

/-- Embedding of `TeamService.list_team_join_requests` (the spec's
`listForTeam`): owner-only listing with an optional status filter. -/
def list_team_join_requests (db : DB) (team_id owner_id : Nat)
    (status_filter : Option JoinRequestStatus) :
    Except ServiceError (List JoinRequestResponse) :=
  match db.teams.find? (fun t => t.id == team_id) with
  | none => .error .TeamNotFound
  | some team =>
    match check_team_not_deleted team with
    | .error e => .error e
    | .ok _ =>
      match validate_team_role db team_id owner_id [TeamRole.OWNER] with
      | .error e => .error e
      | .ok _ =>
        let base : List JoinRequestModel :=
          db.joinRequests.filter (fun r => r.team_id == team_id)
        let rows : List JoinRequestModel :=
          match status_filter with
          | some s => base.filter (fun r => r.status == s)
          | none => base
        .ok (rows.map (fun r =>
          { id := r.id, team_id := r.team_id, team_name := team.name,
            requested_by := r.requested_by,
            requester_name := ((userById db r.requested_by).map (fun u => u.name)).getD "",
            requester_email := ((userById db r.requested_by).map (fun u => u.email)).getD "",
            status := r.status, reviewed_by := r.reviewed_by,
            reviewer_name :=
              match r.reviewed_by with
              | some rid => (userById db rid).map (fun u => u.name)
              | none => none,
            reviewed_at := r.reviewed_at, created_at := r.created_at }))

/-- Embedding of `TeamService.review_join_request`.  Note the source checks
only that `action` is APPROVED or DECLINED and, on approve, that the
requester is not currently a member; it never checks the request's current
status.  The status/reviewer update and the membership insert happen in the
same flush (one transaction).  `now` models `datetime.now(timezone.utc)`. -/
def review_join_request (db : DB) (request_id owner_id : Nat)
    (action : JoinRequestStatus) (now : Nat) :
    Except ServiceError (DB × JoinRequestResponse) :=
  if !([JoinRequestStatus.APPROVED, JoinRequestStatus.DECLINED].contains action) then
    .error .BadRequestError
  else
    match db.joinRequests.find? (fun r => r.id == request_id) with
    | none => .error .JoinRequestNotFound
    | some join_request =>
      match db.teams.find? (fun t => t.id == join_request.team_id) with
      | none => .error .BrokenReference
      | some team =>
        match check_team_not_deleted team with
        | .error e => .error e
        | .ok _ =>
          match validate_team_role db join_request.team_id owner_id [TeamRole.OWNER] with
          | .error e => .error e
          | .ok _ =>
            let afterApprove : Except ServiceError DB :=
              if action == JoinRequestStatus.APPROVED then
                match db.members.find? (fun m =>
                    m.team_id == join_request.team_id &&
                    m.user_id == join_request.requested_by) with
                | some _ => .error .UserAlreadyMember
                | none =>
                  .ok { db with
                        members := db.members ++
                          [{ id := db.nextId, team_id := join_request.team_id,
                             user_id := join_request.requested_by,
                             role := TeamRole.MEMBER }],
                        nextId := db.nextId + 1 }
              else .ok db
            match afterApprove with
            | .error e => .error e
            | .ok db1 =>
              let setReviewed : JoinRequestModel → JoinRequestModel := fun r =>
                { r with status := action, reviewed_by := some owner_id, reviewed_at := some now }
              let db2 := { db1 with
                           joinRequests := updateFirst (fun r => r.id == request_id)
                             setReviewed db1.joinRequests }
              let updated := setReviewed join_request
              .ok (db2,
                { id := updated.id, team_id := updated.team_id, team_name := team.name,
                  requested_by := updated.requested_by,
                  requester_name := ((userById db updated.requested_by).map (fun u => u.name)).getD "",
                  requester_email := ((userById db updated.requested_by).map (fun u => u.email)).getD "",
                  status := updated.status, reviewed_by := updated.reviewed_by,
                  reviewer_name := (userById db owner_id).map (fun u => u.name),
                  reviewed_at := updated.reviewed_at, created_at := updated.created_at })

/-- Interleaved execution of two concurrent `create_join_request` calls for
the same team code and requester, in the racing schedule of spec section 5:
both transactions run the read-only checks against the initial snapshot
`db0` before either commits; the first insert then commits, and the second
call's insert flushes against the committed state.  The pair returned holds
the outcome of each call. -/
def race_two_create_calls (db0 : DB) (team_code : String) (user : UserModel)
    (now1 now2 : Nat) :
    Except ServiceError (DB × JoinRequestResponse) ×
    Except ServiceError (DB × JoinRequestResponse) :=
  match create_join_request db0 team_code user now1 with
  | .error e => (.error e, create_join_request db0 team_code user now2)
  | .ok (db1, resp1) =>
    (.ok (db1, resp1),
     match create_join_request_checks db0 team_code user.id with
     | .error e => .error e
     | .ok team =>
       match flush_pending_insert db1 team.id user.id now2 with
       | .error e => .error e
       | .ok (db2, row) => .ok (db2, join_request_response team user row))

/-- A Python runtime value, for modelling attribute access on ORM rows. -/
inductive PyValue where
  | vnat (n : Nat)
  | vstr (s : String)
  | vbool (b : Bool)
  | vnone
deriving DecidableEq

/-- Outcome of running a piece of Python over the declared entity schema:
a normal value, a named business exception, or an `AttributeError` on an
undefined attribute. -/
inductive PyResult (α : Type) where
  | ok (a : α)
  | businessError (e : ServiceError)
  | attributeError (attr : String)
deriving DecidableEq

/-- The persistent columns declared on `TeamModel` in `src/models/team.py`:
`owner_id`, `name`, `description`, `team_code`, `is_active` on the class
itself, plus `id` from `UUIDPrimaryKeyMixin` and `created_at`/`updated_at`
from `TimeStampMixin` (`src/core/utils/mixins.py`).  The `members` and
`join_requests` relationships are not columns. -/
def teamModelDeclaredColumns : List String :=
  ["id", "created_at", "updated_at", "owner_id", "name", "description",
   "team_code", "is_active"]

/-- A `teams` row carrying exactly the fields the declared ORM entity maps. -/
structure DeclaredTeamRow where
  id : Nat
  owner_id : Nat
  name : String
  description : Option String
  team_code : String
  is_active : Bool
  created_at : Nat
  updated_at : Nat
deriving DecidableEq

/-- Python attribute access on a loaded `TeamModel` instance restricted to
the declared entity schema: defined exactly on `teamModelDeclaredColumns`,
`none` (an `AttributeError` in Python) on everything else. -/
def DeclaredTeamRow.getattr (t : DeclaredTeamRow) (c : String) : Option PyValue :=
  if c == "id" then some (.vnat t.id)
  else if c == "created_at" then some (.vnat t.created_at)
  else if c == "updated_at" then some (.vnat t.updated_at)
  else if c == "owner_id" then some (.vnat t.owner_id)
  else if c == "name" then some (.vstr t.name)
  else if c == "description" then
    match t.description with
    | some s => some (.vstr s)
    | none => some .vnone
  else if c == "team_code" then some (.vstr t.team_code)
  else if c == "is_active" then some (.vbool t.is_active)
  else none

/-- Resolution of a class attribute such as `TeamModel.status` when building
a query (`load_only(TeamModel.status)`): defined only for declared columns. -/
def teamModelResolveAttr (c : String) : Option String :=
  if teamModelDeclaredColumns.contains c then some c else none

/-- The body of `TeamService._check_team_not_deleted` evaluated over the
declared entity schema: it reads `team.status` and compares it against
`TeamStatus.DELETED`, raising `TeamNotFound` when equal. -/
def check_team_not_deleted_declared (t : DeclaredTeamRow) : PyResult Unit :=
  match t.getattr "status" with
  | none => .attributeError "status"
  | some v =>
    if v == PyValue.vstr "DELETED" then .businessError .TeamNotFound else .ok ()

/-- The query-construction step of `TeamService.list_team_members` over the
declared entity schema: `select(TeamModel).options(load_only(TeamModel.id,
TeamModel.status))` resolves both class attributes before any row is read
or any business check runs. -/
def list_team_members_declared_query (team_id : Nat) : PyResult Nat :=
  match teamModelResolveAttr "id", teamModelResolveAttr "status" with
  | some _, some _ => .ok team_id
  | none, _ => .attributeError "id"
  | _, none => .attributeError "status"

/-- The methods defined on class `TeamService` in
`src/apps/team/services/team.py`, in source order. -/
def teamServiceMethods : List String :=
  ["create_team", "list_my_teams", "get_team_by_id", "update_team",
   "toggle_team_active_status", "delete_team", "list_team_members",
   "promote_to_admin", "demote_from_admin", "remove_member_from_team",
   "create_join_request", "list_team_join_requests", "review_join_request",
   "list_my_join_requests", "_get_user_team_role", "_validate_team_membership",
   "_validate_team_role", "_check_team_not_deleted"]

/-- Python attribute lookup of a method on a `TeamService` instance. -/
def resolveServiceMethod (name : String) : Option String :=
  if teamServiceMethods.contains name then some name else none

/-- The service call made by the controller `get_join_request`
(`src/apps/team/controller/team.py`, route `/join-request/{request_id}`):
`service.get_join_request_by_id(request_id, user)`.  The call first resolves
the method name on the service instance. -/
def get_join_request_controller_call (request_id user_id : Nat) : PyResult (Nat × Nat) :=
  match resolveServiceMethod "get_join_request_by_id" with
  | none => .attributeError "get_join_request_by_id"
  | some _ => .ok (request_id, user_id)

/-- The rows of a team's membership that carry the `OWNER` role. -/
def ownerRows (db : DB) (team_id : Nat) : List TeamMemberModel :=
  db.members.filter (fun m => m.team_id == team_id && m.role == TeamRole.OWNER)

/-- The storage-enforced uniqueness of `(team_id, user_id)` on
`team_members` (`UniqueConstraint` `uq_team_members_team_user` in
`src/models/team_member.py`). -/
def membersUniquePerTeam (db : DB) : Prop :=
  db.members.Pairwise (fun a b => ¬(a.team_id = b.team_id ∧ a.user_id = b.user_id))

/-- The owner invariant of the spec: exactly one membership row of the team
has role `OWNER`, and its user is the team's owner. -/
def ownerInvariant (db : DB) (team : TeamModel) : Prop :=
  ∃ m, ownerRows db team.id = [m] ∧ m.user_id = team.owner_id

theorem updateFirst_filter_eq {α : Type} (p q : α → Bool) (f : α → α) :
    ∀ (l : List α) (a : α), l.find? p = some a → q a = false → q (f a) = false →
      (updateFirst p f l).filter q = l.filter q := by
  intro l
  induction l with
  | nil => intro a h _ _; simp [List.find?] at h
  | cons x xs ih =>
    intro a hfind hqa hqfa
    cases hp : p x with
    | true =>
      rw [List.find?_cons_of_pos _ hp] at hfind
      injection hfind with hax
      subst hax
      simp [updateFirst, hp, List.filter_cons, hqa, hqfa]
    | false =>
      have hp' : ¬ p x = true := by simp [hp]
      rw [List.find?_cons_of_neg _ hp'] at hfind
      simp [updateFirst, hp, List.filter_cons, ih a hfind hqa hqfa]

theorem mem_updateFirst_of_neg {α : Type} (p : α → Bool) (f : α → α) :
    ∀ (l : List α) (x : α), x ∈ l → p x = false → x ∈ updateFirst p f l := by
  intro l
  induction l with
  | nil => intro x hx _; simp at hx
  | cons y ys ih =>
    intro x hx hpx
    cases hp : p y with
    | true =>
      simp only [updateFirst, hp, if_true]
      rcases List.mem_cons.mp hx with hxy | hxs
      · subst hxy; rw [hpx] at hp; exact absurd hp (by simp)
      · exact List.mem_cons_of_mem _ hxs
    | false =>
      simp only [updateFirst, hp, Bool.false_eq_true, if_false]
      rcases List.mem_cons.mp hx with hxy | hxs
      · subst hxy; exact List.mem_cons_self x _
      · exact List.mem_cons_of_mem _ (ih x hxs hpx)

theorem find?_updateFirst {α : Type} (p : α → Bool) (f : α → α) :
    ∀ (l : List α) (a : α), l.find? p = some a → p (f a) = true →
      (updateFirst p f l).find? p = some (f a) := by
  intro l
  induction l with
  | nil => intro a h _; simp [List.find?] at h
  | cons x xs ih =>
    intro a hfind hpf
    cases hp : p x with
    | true =>
      rw [List.find?_cons_of_pos _ hp] at hfind
      injection hfind with hax
      subst hax
      simp only [updateFirst, hp, if_true]
      exact List.find?_cons_of_pos _ hpf
    | false =>
      have hp' : ¬ p x = true := by simp [hp]
      rw [List.find?_cons_of_neg _ hp'] at hfind
      simp only [updateFirst, hp, Bool.false_eq_true, if_false]
      rw [List.find?_cons_of_neg _ hp']
      exact ih a hfind hpf

theorem find?_filter_none {α : Type} (p q : α → Bool) (l : List α)
    (h : l.find? p = none) : (l.filter q).find? p = none := by
  rw [List.find?_eq_none] at h ⊢
  intro x hx
  exact h x (List.mem_of_mem_filter hx)

theorem find?_filter_not_none {α : Type} (p : α → Bool) (l : List α) :
    (l.filter (fun x => !(p x))).find? p = none := by
  rw [List.find?_eq_none]
  intro x hx
  have hnx := (List.mem_filter.mp hx).2
  simp only [Bool.not_eq_true'] at hnx
  simp [hnx]

theorem filter_filter_not_eq {α : Type} (p q : α → Bool) :
    ∀ (l : List α), (∀ x ∈ l, p x = true → q x = false) →
      (l.filter (fun x => !(p x))).filter q = l.filter q := by
  intro l
  induction l with
  | nil => intro _; rfl
  | cons x xs ih =>
    intro h
    have hxs : ∀ y ∈ xs, p y = true → q y = false :=
      fun y hy => h y (List.mem_cons_of_mem x hy)
    cases hp : p x with
    | true => simp [List.filter_cons, hp, h x (List.mem_cons_self x xs) hp, ih hxs]
    | false => simp [List.filter_cons, hp, ih hxs]

theorem check_team_not_deleted_ok {team : TeamModel} {u : Unit}
    (h : check_team_not_deleted team = .ok u) : team.status ≠ TeamStatus.DELETED := by
  unfold check_team_not_deleted at h
  intro hd
  rw [hd] at h
  simp at h

theorem check_team_not_deleted_of_ne {team : TeamModel}
    (h : team.status ≠ TeamStatus.DELETED) : check_team_not_deleted team = .ok () := by
  unfold check_team_not_deleted
  rw [if_neg]
  simp [h]

theorem validate_team_role_eq_ok {db : DB} {team_id user_id : Nat}
    {roles : List TeamRole} {m : TeamMemberModel}
    (hm : db.members.find? (fun x => x.team_id == team_id && x.user_id == user_id) = some m)
    (hc : roles.contains m.role = true) :
    validate_team_role db team_id user_id roles = .ok m := by
  unfold validate_team_role validate_team_membership
  simp only [hm]
  simp only [if_pos hc]

theorem pair_match_unique {db : DB} (hU : membersUniquePerTeam db)
    {tid uid : Nat} {tm : TeamMemberModel}
    (hfind : db.members.find? (fun m => m.team_id == tid && m.user_id == uid) = some tm) :
    ∀ x ∈ db.members, (x.team_id == tid && x.user_id == uid) = true → x = tm := by
  intro x hx hpx
  have htm := List.mem_of_find?_eq_some hfind
  have hptm := List.find?_some hfind
  by_cases hxe : x = tm
  · exact hxe
  · exfalso
    have hU' : db.members.Pairwise
        (fun a b => ¬(a.team_id = b.team_id ∧ a.user_id = b.user_id)) := hU
    have hsym : Symmetric
        (fun a b : TeamMemberModel => ¬(a.team_id = b.team_id ∧ a.user_id = b.user_id)) := by
      intro a b hab hba
      exact hab ⟨hba.1.symm, hba.2.symm⟩
    have hR := hU'.forall hsym hx htm hxe
    simp only [Bool.and_eq_true, beq_iff_eq] at hpx hptm
    exact hR ⟨hpx.1.trans hptm.1.symm, hpx.2.trans hptm.2.symm⟩

theorem promote_ok_shape {db db' : DB} {team_id user_id owner_id : Nat}
    (hok : promote_to_admin db team_id user_id owner_id = .ok db') :
    ∃ team_member,
      db.members.find? (fun m => m.team_id == team_id && m.user_id == user_id) = some team_member ∧
      team_member.role ≠ TeamRole.OWNER ∧
      db' = { db with members := updateFirst
                          (fun m => m.team_id == team_id && m.user_id == user_id)
                          (fun m => { m with role := TeamRole.ADMIN }) db.members } := by
  unfold promote_to_admin at hok
  cases h1 : db.teams.find? (fun t => t.id == team_id) with
  | none => simp only [h1] at hok; exact Except.noConfusion hok
  | some team =>
    simp only [h1] at hok
    cases h2 : check_team_not_deleted team with
    | error e => simp only [h2] at hok; exact Except.noConfusion hok
    | ok u =>
      simp only [h2] at hok
      cases h3 : validate_team_role db team_id owner_id [TeamRole.OWNER] with
      | error e => simp only [h3] at hok; exact Except.noConfusion hok
      | ok caller_row =>
        simp only [h3] at hok
        cases h4 : (user_id == owner_id) with
        | true => simp only [h4] at hok; exact Except.noConfusion hok
        | false =>
          simp only [h4] at hok
          simp only [Bool.false_eq_true, if_false] at hok
          cases h5 : db.members.find? (fun m => m.team_id == team_id && m.user_id == user_id) with
          | none => simp only [h5] at hok; exact Except.noConfusion hok
          | some tm =>
            simp only [h5] at hok
            cases h6 : (tm.role == TeamRole.OWNER) with
            | true => simp only [h6] at hok; exact Except.noConfusion hok
            | false =>
              simp only [h6] at hok
              simp only [Bool.false_eq_true, if_false] at hok
              injection hok with hdb
              exact ⟨tm, rfl, by simp [← beq_iff_eq, h6], hdb.symm⟩

theorem demote_ok_shape {db db' : DB} {team_id user_id owner_id : Nat}
    (hok : demote_from_admin db team_id user_id owner_id = .ok db') :
    ∃ team_member,
      db.members.find? (fun m => m.team_id == team_id && m.user_id == user_id) = some team_member ∧
      team_member.role ≠ TeamRole.OWNER ∧
      db' = { db with members := updateFirst
                          (fun m => m.team_id == team_id && m.user_id == user_id)
                          (fun m => { m with role := TeamRole.MEMBER }) db.members } := by
  unfold demote_from_admin at hok
  cases h1 : db.teams.find? (fun t => t.id == team_id) with
  | none => simp only [h1] at hok; exact Except.noConfusion hok
  | some team =>
    simp only [h1] at hok
    cases h2 : check_team_not_deleted team with
    | error e => simp only [h2] at hok; exact Except.noConfusion hok
    | ok u =>
      simp only [h2] at hok
      cases h3 : validate_team_role db team_id owner_id [TeamRole.OWNER] with
      | error e => simp only [h3] at hok; exact Except.noConfusion hok
      | ok caller_row =>
        simp only [h3] at hok
        cases h4 : (user_id == owner_id) with
        | true => simp only [h4] at hok; exact Except.noConfusion hok
        | false =>
          simp only [h4] at hok
          simp only [Bool.false_eq_true, if_false] at hok
          cases h5 : db.members.find? (fun m => m.team_id == team_id && m.user_id == user_id) with
          | none => simp only [h5] at hok; exact Except.noConfusion hok
          | some tm =>
            simp only [h5] at hok
            cases h6 : (tm.role == TeamRole.OWNER) with
            | true => simp only [h6] at hok; exact Except.noConfusion hok
            | false =>
              simp only [h6] at hok
              simp only [Bool.false_eq_true, if_false] at hok
              injection hok with hdb
              exact ⟨tm, rfl, by simp [← beq_iff_eq, h6], hdb.symm⟩

theorem remove_ok_shape {db db' : DB} {team_id user_id owner_id : Nat}
    (hok : remove_member_from_team db team_id user_id owner_id = .ok db') :
    ∃ team team_member,
      db.teams.find? (fun t => t.id == team_id) = some team ∧
      team.status ≠ TeamStatus.DELETED ∧
      db.members.find? (fun m => m.team_id == team_id && m.user_id == user_id) = some team_member ∧
      team_member.role ≠ TeamRole.OWNER ∧
      db' = { db with
              joinRequests := db.joinRequests.filter (fun r =>
                !(r.team_id == team_id && r.requested_by == user_id &&
                  r.status == JoinRequestStatus.APPROVED)),
              members := db.members.filter (fun m =>
                !(m.team_id == team_id && m.user_id == user_id)) } := by
  unfold remove_member_from_team at hok
  cases h1 : db.teams.find? (fun t => t.id == team_id) with
  | none => simp only [h1] at hok; exact Except.noConfusion hok
  | some team =>
    simp only [h1] at hok
    cases h2 : check_team_not_deleted team with
    | error e => simp only [h2] at hok; exact Except.noConfusion hok
    | ok u =>
      simp only [h2] at hok
      cases h3 : validate_team_role db team_id owner_id [TeamRole.OWNER] with
      | error e => simp only [h3] at hok; exact Except.noConfusion hok
      | ok caller_row =>
        simp only [h3] at hok
        cases h4 : (user_id == owner_id) with
        | true => simp only [h4] at hok; exact Except.noConfusion hok
        | false =>
          simp only [h4] at hok
          simp only [Bool.false_eq_true, if_false] at hok
          cases h5 : db.members.find? (fun m => m.team_id == team_id && m.user_id == user_id) with
          | none => simp only [h5] at hok; exact Except.noConfusion hok
          | some tm =>
            simp only [h5] at hok
            cases h6 : (tm.role == TeamRole.OWNER) with
            | true => simp only [h6] at hok; exact Except.noConfusion hok
            | false =>
              simp only [h6] at hok
              simp only [Bool.false_eq_true, if_false] at hok
              injection hok with hdb
              exact ⟨team, tm, rfl, check_team_not_deleted_ok h2, rfl,
                     by simp [← beq_iff_eq, h6], hdb.symm⟩

/-- C1: Owner immutability.  First part: whatever the caller and target,
any successful `promote_to_admin`, `demote_from_admin` or
`remove_member_from_team` leaves the team table untouched and leaves every
team's set of OWNER rows literally unchanged (so the owner invariant is
preserved); a failing call returns only an error, leaving the transaction
rolled back.  Second part: under the owner invariant, a caller that passes
the OWNER role check and targets the team's owner gets
`CannotModifyOwner` from all three operations. -/
theorem owner_row_immutable :
    (∀ (db db' : DB) (team_id user_id owner_id : Nat),
        membersUniquePerTeam db →
        (promote_to_admin db team_id user_id owner_id = .ok db' ∨
         demote_from_admin db team_id user_id owner_id = .ok db' ∨
         remove_member_from_team db team_id user_id owner_id = .ok db') →
        db'.teams = db.teams ∧
        (∀ tid, ownerRows db' tid = ownerRows db tid) ∧
        (∀ team, ownerInvariant db team → ownerInvariant db' team)) ∧
    (∀ (db : DB) (team : TeamModel) (team_id caller : Nat) (m : TeamMemberModel),
        db.teams.find? (fun t => t.id == team_id) = some team →
        team.status ≠ TeamStatus.DELETED →
        db.members.find? (fun x => x.team_id == team_id && x.user_id == caller) = some m →
        m.role = TeamRole.OWNER →
        ownerInvariant db team →
        promote_to_admin db team_id team.owner_id caller = .error .CannotModifyOwner ∧
        demote_from_admin db team_id team.owner_id caller = .error .CannotModifyOwner ∧
        remove_member_from_team db team_id team.owner_id caller = .error .CannotModifyOwner) := by
  constructor
  · intro db db' team_id user_id owner_id hU hcase
    have main : db'.teams = db.teams ∧ ∀ tid, ownerRows db' tid = ownerRows db tid := by
      rcases hcase with h | h | h
      · obtain ⟨tm, hfind, hrole, hdb⟩ := promote_ok_shape h
        subst hdb
        refine ⟨rfl, fun tid => ?_⟩
        have hqa : (tm.team_id == tid && tm.role == TeamRole.OWNER) = false := by
          have : (tm.role == TeamRole.OWNER) = false := beq_eq_false_iff_ne.mpr hrole
          simp [this]
        have hqfa : ((({ tm with role := TeamRole.ADMIN } : TeamMemberModel)).team_id == tid &&
            (({ tm with role := TeamRole.ADMIN } : TeamMemberModel)).role == TeamRole.OWNER) = false := by
          simp
        exact updateFirst_filter_eq _ _ _ _ _ hfind hqa hqfa
      · obtain ⟨tm, hfind, hrole, hdb⟩ := demote_ok_shape h
        subst hdb
        refine ⟨rfl, fun tid => ?_⟩
        have hqa : (tm.team_id == tid && tm.role == TeamRole.OWNER) = false := by
          have : (tm.role == TeamRole.OWNER) = false := beq_eq_false_iff_ne.mpr hrole
          simp [this]
        have hqfa : ((({ tm with role := TeamRole.MEMBER } : TeamMemberModel)).team_id == tid &&
            (({ tm with role := TeamRole.MEMBER } : TeamMemberModel)).role == TeamRole.OWNER) = false := by
          simp
        exact updateFirst_filter_eq _ _ _ _ _ hfind hqa hqfa
      · obtain ⟨team, tm, hteam, hlive, hfind, hrole, hdb⟩ := remove_ok_shape h
        subst hdb
        refine ⟨rfl, fun tid => ?_⟩
        apply filter_filter_not_eq
        intro x hx hpx
        have hxtm := pair_match_unique hU hfind x hx hpx
        subst hxtm
        have : (x.role == TeamRole.OWNER) = false := beq_eq_false_iff_ne.mpr hrole
        simp [this]
    refine ⟨main.1, main.2, fun team hinv => ?_⟩
    obtain ⟨mo, hrows, hown⟩ := hinv
    exact ⟨mo, (main.2 team.id).trans hrows, hown⟩
  · intro db team team_id caller m hfind hlive hm hrole hinv
    obtain ⟨mo, hrows, hown⟩ := hinv
    have hte : team.id = team_id := by
      have := List.find?_some hfind
      simpa [beq_iff_eq] using this
    have hmp := List.find?_some hm
    simp only [Bool.and_eq_true, beq_iff_eq] at hmp
    have hmem := List.mem_of_find?_eq_some hm
    have hmo : m = mo := by
      have hq : (m.team_id == team.id && m.role == TeamRole.OWNER) = true := by
        simp [hmp.1, hte, hrole]
      have : m ∈ ownerRows db team.id := List.mem_filter.mpr ⟨hmem, hq⟩
      rw [hrows] at this
      simpa using this
    have hco : (team.owner_id == caller) = true := by
      have : caller = team.owner_id := by
        rw [← hmp.2, hmo, hown]
      simp [this]
    have hc : ([TeamRole.OWNER].contains m.role) = true := by simp [hrole]
    have hcheck := check_team_not_deleted_of_ne hlive
    have hval := validate_team_role_eq_ok hm hc
    refine ⟨?_, ?_, ?_⟩
    · unfold promote_to_admin
      simp only [hfind, hcheck, hval, hco, if_true]
    · unfold demote_from_admin
      simp only [hfind, hcheck, hval, hco, if_true]
    · unfold remove_member_from_team
      simp only [hfind, hcheck, hval, hco, if_true]

/-- A concrete store for exercising the membership operations: team 1 owned
by user 10, with user 20 as a plain member. -/
def exTeam1 : TeamModel :=
  { id := 1, owner_id := 10, name := "alpha", description := none,
    team_code := "CODE1", is_active := true, status := TeamStatus.ACTIVE,
    created_at := 0 }

def exOwnerRow1 : TeamMemberModel :=
  { id := 1, team_id := 1, user_id := 10, role := TeamRole.OWNER }

def exMemberRow1 : TeamMemberModel :=
  { id := 2, team_id := 1, user_id := 20, role := TeamRole.MEMBER }

def exDb1 : DB :=
  { teams := [exTeam1], members := [exOwnerRow1, exMemberRow1],
    joinRequests := [], users := [], nextId := 3 }

def exDb1' : DB :=
  { exDb1 with members := [exOwnerRow1, { exMemberRow1 with role := TeamRole.ADMIN }] }

/-- Witness for C1: a concrete promotion of user 20 by owner 10 keeps the
owner rows intact, and promoting the owner fails `CannotModifyOwner`. -/
theorem owner_row_immutable_witness :
    (exDb1'.teams = exDb1.teams ∧
     (∀ tid, ownerRows exDb1' tid = ownerRows exDb1 tid) ∧
     (∀ team, ownerInvariant exDb1 team → ownerInvariant exDb1' team)) ∧
    promote_to_admin exDb1 1 exTeam1.owner_id 10 = .error .CannotModifyOwner := by
  constructor
  · exact owner_row_immutable.1 exDb1 exDb1' 1 20 10
      (by unfold membersUniquePerTeam; decide) (Or.inl (by decide))
  · exact (owner_row_immutable.2 exDb1 exTeam1 1 10 exOwnerRow1 (by decide) (by decide)
      (by decide) rfl ⟨exOwnerRow1, by decide, rfl⟩).1

theorem create_ok_of_checks (db : DB) (code : String) (user : UserModel)
    (now : Nat) (team : TeamModel)
    (hteam : db.teams.find? (fun t => t.team_code == code) = some team)
    (hlive : team.status ≠ TeamStatus.DELETED)
    (hp : db.joinRequests.find? (fun r => r.team_id == team.id && r.requested_by == user.id &&
        r.status == JoinRequestStatus.PENDING) = none)
    (hm : db.members.find? (fun m => m.team_id == team.id && m.user_id == user.id) = none) :
    create_join_request db code user now =
      .ok ({ db with
             joinRequests := db.joinRequests ++
               [{ id := db.nextId, team_id := team.id, requested_by := user.id,
                  status := JoinRequestStatus.PENDING, reviewed_by := none,
                  reviewed_at := none, created_at := now }],
             nextId := db.nextId + 1 },
           join_request_response team user
             { id := db.nextId, team_id := team.id, requested_by := user.id,
               status := JoinRequestStatus.PENDING, reviewed_by := none,
               reviewed_at := none, created_at := now }) := by
  have hst : (team.status == TeamStatus.DELETED) = false := beq_eq_false_iff_ne.mpr hlive
  unfold create_join_request create_join_request_checks flush_pending_insert
  simp only [hteam, hst, Bool.false_eq_true, if_false, hp, hm]

/-- C2: the ordered checks of `create_join_request` on a live team: a
PENDING row for (team, requester) yields `DuplicateJoinRequest` regardless
of membership; with no PENDING row, membership yields `UserAlreadyMember`;
with neither, a new PENDING row is inserted. -/
theorem join_request_check_order (db : DB) (code : String) (user : UserModel)
    (now : Nat) (team : TeamModel)
    (hteam : db.teams.find? (fun t => t.team_code == code) = some team)
    (hlive : team.status ≠ TeamStatus.DELETED) :
    ((db.joinRequests.find? (fun r => r.team_id == team.id && r.requested_by == user.id &&
        r.status == JoinRequestStatus.PENDING)).isSome →
      create_join_request db code user now = .error .DuplicateJoinRequest) ∧
    (db.joinRequests.find? (fun r => r.team_id == team.id && r.requested_by == user.id &&
        r.status == JoinRequestStatus.PENDING) = none →
      (db.members.find? (fun m => m.team_id == team.id && m.user_id == user.id)).isSome →
      create_join_request db code user now = .error .UserAlreadyMember) ∧
    (db.joinRequests.find? (fun r => r.team_id == team.id && r.requested_by == user.id &&
        r.status == JoinRequestStatus.PENDING) = none →
      db.members.find? (fun m => m.team_id == team.id && m.user_id == user.id) = none →
      create_join_request db code user now =
        .ok ({ db with
               joinRequests := db.joinRequests ++
                 [{ id := db.nextId, team_id := team.id, requested_by := user.id,
                    status := JoinRequestStatus.PENDING, reviewed_by := none,
                    reviewed_at := none, created_at := now }],
               nextId := db.nextId + 1 },
             join_request_response team user
               { id := db.nextId, team_id := team.id, requested_by := user.id,
                 status := JoinRequestStatus.PENDING, reviewed_by := none,
                 reviewed_at := none, created_at := now })) := by
  have hst : (team.status == TeamStatus.DELETED) = false := beq_eq_false_iff_ne.mpr hlive
  refine ⟨?_, ?_, ?_⟩
  · intro hp
    obtain ⟨r, hr⟩ := Option.isSome_iff_exists.mp hp
    unfold create_join_request create_join_request_checks
    simp only [hteam, hst, Bool.false_eq_true, if_false, hr]
  · intro hp hm
    obtain ⟨mm, hmm⟩ := Option.isSome_iff_exists.mp hm
    unfold create_join_request create_join_request_checks
    simp only [hteam, hst, Bool.false_eq_true, if_false, hp, hmm]
  · intro hp hm
    exact create_ok_of_checks db code user now team hteam hlive hp hm

/-- A store where user 20 both has a PENDING request for team 1 and is a
member of team 1 — the contrived state of the spec's check-ordering test. -/
def exTeam2 : TeamModel :=
  { id := 1, owner_id := 10, name := "beta", description := none,
    team_code := "CODE2", is_active := true, status := TeamStatus.ACTIVE,
    created_at := 0 }

def exUser2 : UserModel := { id := 20, name := "bob", username := "bob", email := "bob" }

def exDb2 : DB :=
  { teams := [exTeam2],
    members := [{ id := 1, team_id := 1, user_id := 10, role := TeamRole.OWNER },
                { id := 2, team_id := 1, user_id := 20, role := TeamRole.MEMBER }],
    joinRequests := [{ id := 4, team_id := 1, requested_by := 20,
                       status := JoinRequestStatus.PENDING, reviewed_by := none,
                       reviewed_at := none, created_at := 0 }],
    users := [exUser2], nextId := 5 }

/-- Witness for C2: user 20 is simultaneously a member and the holder of a
PENDING request; `create_join_request` answers `DuplicateJoinRequest`, not
`UserAlreadyMember`. -/
theorem join_request_check_order_witness :
    exDb2.teams.find? (fun t => t.team_code == "CODE2") = some exTeam2 ∧
    (exDb2.members.find? (fun m => m.team_id == exTeam2.id && m.user_id == exUser2.id)).isSome ∧
    create_join_request exDb2 "CODE2" exUser2 9 = .error .DuplicateJoinRequest := by
  refine ⟨by decide, by decide, ?_⟩
  exact (join_request_check_order exDb2 "CODE2" exUser2 9 exTeam2 (by decide) (by decide)).1
    (by decide)

theorem check_team_not_deleted_deleted {team : TeamModel}
    (h : team.status = TeamStatus.DELETED) :
    check_team_not_deleted team = .error .TeamNotFound := by
  unfold check_team_not_deleted
  simp [h]

/-- C3 (amended): soft-delete masking as the code implements it.  On a
deleted team: `get_team_by_id` fails `TeamNotFound` for every caller that
holds a membership row (including the former owner, whose row survives the
soft delete); `list_team_members` and `list_team_join_requests` fail
`TeamNotFound` for every caller; join-by-code fails `InvalidTeamCode` for
every caller; and a nonexistent team id also gives `TeamNotFound`.  But a
caller with no membership row gets `UnauthorizedTeamAccess` from
`get_team_by_id` on the deleted team — the membership check runs before the
deleted check — so a deleted team is distinguishable from an absent one for
non-members. -/
theorem soft_delete_masking :
    (∀ (db : DB) (team_id caller : Nat) (team : TeamModel),
        db.teams.find? (fun t => t.id == team_id) = some team →
        team.status = TeamStatus.DELETED →
        ((db.members.find? (fun m => m.team_id == team_id && m.user_id == caller)).isSome →
          get_team_by_id db team_id caller = .error .TeamNotFound) ∧
        list_team_members db team_id caller = .error .TeamNotFound ∧
        (∀ sf, list_team_join_requests db team_id caller sf = .error .TeamNotFound) ∧
        (db.members.find? (fun m => m.team_id == team_id && m.user_id == caller) = none →
          get_team_by_id db team_id caller = .error .UnauthorizedTeamAccess)) ∧
    (∀ (db : DB) (code : String) (user : UserModel) (now : Nat) (team : TeamModel),
        db.teams.find? (fun t => t.team_code == code) = some team →
        team.status = TeamStatus.DELETED →
        create_join_request db code user now = .error .InvalidTeamCode) ∧
    (∀ (db : DB) (team_id caller : Nat),
        db.teams.find? (fun t => t.id == team_id) = none →
        get_team_by_id db team_id caller = .error .TeamNotFound) := by
  refine ⟨?_, ?_, ?_⟩
  · intro db team_id caller team hfind hdel
    have hcheck := check_team_not_deleted_deleted hdel
    refine ⟨?_, ?_, ?_, ?_⟩
    · intro hm
      obtain ⟨m, hmm⟩ := Option.isSome_iff_exists.mp hm
      unfold get_team_by_id
      simp only [hfind, hmm, hcheck]
    · unfold list_team_members
      simp only [hfind, hcheck]
    · intro sf
      unfold list_team_join_requests
      simp only [hfind, hcheck]
    · intro hnone
      unfold get_team_by_id
      simp only [hfind, hnone]
  · intro db code user now team hteam hdel
    have hbt : (team.status == TeamStatus.DELETED) = true := by simp [hdel]
    unfold create_join_request create_join_request_checks
    simp only [hteam, hbt, if_true]
  · intro db team_id caller hnone
    unfold get_team_by_id
    simp only [hnone]

/-- A deleted team 1 owned by user 10 (whose membership row survives); user
20 has no membership. -/
def exDb3 : DB :=
  { teams := [{ id := 1, owner_id := 10, name := "gone", description := none,
                team_code := "CODE3", is_active := true,
                status := TeamStatus.DELETED, created_at := 0 }],
    members := [{ id := 1, team_id := 1, user_id := 10, role := TeamRole.OWNER }],
    joinRequests := [],
    users := [{ id := 10, name := "ann", username := "ann", email := "ann" }],
    nextId := 2 }

/-- Counterexample to C3 as stated: a non-member calling `get_team_by_id` on
deleted team 1 gets `UnauthorizedTeamAccess`, not the `TeamNotFound` that a
nonexistent team id (99) produces — so a deleted team is not
indistinguishable from an absent one for every caller. -/
theorem soft_delete_masking_counterexample :
    get_team_by_id exDb3 1 20 = .error .UnauthorizedTeamAccess ∧
    get_team_by_id exDb3 99 20 = .error .TeamNotFound ∧
    get_team_by_id exDb3 1 20 ≠ .error .TeamNotFound := by
  refine ⟨by decide, by decide, by decide⟩

/-- Witness for the amended C3: on deleted team 1, the former owner 10 gets
`TeamNotFound` from `get_team_by_id`, and `list_team_members` does too. -/
theorem soft_delete_masking_witness :
    get_team_by_id exDb3 1 10 = .error .TeamNotFound ∧
    list_team_members exDb3 1 20 = .error .TeamNotFound := by
  have h := soft_delete_masking.1 exDb3 1 10
    { id := 1, owner_id := 10, name := "gone", description := none,
      team_code := "CODE3", is_active := true, status := TeamStatus.DELETED,
      created_at := 0 } (by decide) rfl
  have h2 := soft_delete_masking.1 exDb3 1 20
    { id := 1, owner_id := 10, name := "gone", description := none,
      team_code := "CODE3", is_active := true, status := TeamStatus.DELETED,
      created_at := 0 } (by decide) rfl
  exact ⟨h.1 (by decide), h2.2.1⟩

/-- C6: on an existing, non-deleted team with `is_active = false`, a caller
whose membership role is MEMBER gets `TeamDeactivated` from
`get_team_by_id`, while a caller whose role is OWNER or ADMIN receives the
team view. -/
theorem deactivation_asymmetry (db : DB) (team_id user_id : Nat)
    (team : TeamModel) (m : TeamMemberModel)
    (hfind : db.teams.find? (fun t => t.id == team_id) = some team)
    (hlive : team.status ≠ TeamStatus.DELETED)
    (hinact : team.is_active = false)
    (hm : db.members.find? (fun x => x.team_id == team_id && x.user_id == user_id) = some m) :
    (m.role = TeamRole.MEMBER →
      get_team_by_id db team_id user_id = .error .TeamDeactivated) ∧
    (m.role = TeamRole.OWNER ∨ m.role = TeamRole.ADMIN →
      ∃ resp, get_team_by_id db team_id user_id = .ok resp) := by
  have hcheck := check_team_not_deleted_of_ne hlive
  constructor
  · intro hr
    unfold get_team_by_id
    simp only [hfind, hm, hcheck, hinact, hr]
    simp
  · intro hr
    have hrm : (m.role == TeamRole.MEMBER) = false := by
      rcases hr with h | h <;> simp [h]
    unfold get_team_by_id
    simp only [hfind, hm, hcheck, hinact, hrm]
    simp only [Bool.and_false, Bool.false_eq_true, if_false]
    exact ⟨_, rfl⟩

/-- A deactivated (but not deleted) team 1: owner 10, admin 30, member 20. -/
def exDb6 : DB :=
  { teams := [{ id := 1, owner_id := 10, name := "idle", description := none,
                team_code := "CODE6", is_active := false,
                status := TeamStatus.ACTIVE, created_at := 0 }],
    members := [{ id := 1, team_id := 1, user_id := 10, role := TeamRole.OWNER },
                { id := 2, team_id := 1, user_id := 20, role := TeamRole.MEMBER },
                { id := 3, team_id := 1, user_id := 30, role := TeamRole.ADMIN }],
    joinRequests := [],
    users := [{ id := 10, name := "ann", username := "ann", email := "ann" }],
    nextId := 4 }

/-- Witness for C6: member 20 is locked out of the deactivated team 1 while
admin 30 still gets the view. -/
theorem deactivation_asymmetry_witness :
    get_team_by_id exDb6 1 20 = .error .TeamDeactivated ∧
    ∃ resp, get_team_by_id exDb6 1 30 = .ok resp := by
  constructor
  · exact (deactivation_asymmetry exDb6 1 20
      { id := 1, owner_id := 10, name := "idle", description := none,
        team_code := "CODE6", is_active := false, status := TeamStatus.ACTIVE,
        created_at := 0 }
      { id := 2, team_id := 1, user_id := 20, role := TeamRole.MEMBER }
      (by decide) (by decide) rfl (by decide)).1 rfl
  · exact (deactivation_asymmetry exDb6 1 30
      { id := 1, owner_id := 10, name := "idle", description := none,
        team_code := "CODE6", is_active := false, status := TeamStatus.ACTIVE,
        created_at := 0 }
      { id := 3, team_id := 1, user_id := 30, role := TeamRole.ADMIN }
      (by decide) (by decide) rfl (by decide)).2 (Or.inr rfl)

/-- C9: partial update frame condition.  On a non-deleted team, a caller
with role OWNER or ADMIN gets a successful `update_team` whose only effect
on the store is to replace that team's `name` when `data.name` is provided
and `description` when `data.description` is provided (absent fields keep
their previous value); `owner_id`, `team_code`, `is_active`, `status`,
`created_at` and `id` are untouched (visible in the record update below),
the other tables are untouched, and every other team row is untouched. -/
theorem update_team_frame (db : DB) (team_id user_id : Nat)
    (data : UpdateTeamRequest) (team : TeamModel) (m : TeamMemberModel)
    (hfind : db.teams.find? (fun t => t.id == team_id) = some team)
    (hlive : team.status ≠ TeamStatus.DELETED)
    (hm : db.members.find? (fun x => x.team_id == team_id && x.user_id == user_id) = some m)
    (hrole : m.role = TeamRole.OWNER ∨ m.role = TeamRole.ADMIN) :
    ∃ db' resp,
      update_team db team_id user_id data = .ok (db', resp) ∧
      db'.teams.find? (fun t => t.id == team_id) =
        some { team with
               name := data.name.getD team.name,
               description := (data.description.map some).getD team.description } ∧
      db'.members = db.members ∧
      db'.joinRequests = db.joinRequests ∧
      db'.users = db.users ∧
      (∀ t ∈ db.teams, t.id ≠ team_id → t ∈ db'.teams) := by
  have hc : ([TeamRole.OWNER, TeamRole.ADMIN].contains m.role) = true := by
    rcases hrole with h | h <;> simp [h]
  have hval := validate_team_role_eq_ok hm hc
  have hcheck := check_team_not_deleted_of_ne hlive
  have hid : (team.id == team_id) = true := by
    have := List.find?_some hfind
    simpa using this
  have frame : ∀ (f : TeamModel → TeamModel) (t : TeamModel), t ∈ db.teams →
      t.id ≠ team_id → t ∈ updateFirst (fun x => x.id == team_id) f db.teams := by
    intro f t ht hne
    exact mem_updateFirst_of_neg _ _ _ _ ht (by simp [hne])
  cases hn : data.name with
  | none =>
    cases hd : data.description with
    | none =>
      unfold update_team
      simp only [hfind, hcheck, hval, hn, hd]
      refine ⟨_, _, rfl, ?_, rfl, rfl, rfl, ?_⟩
      · have := find?_updateFirst (fun t => t.id == team_id) (fun _ => team)
          db.teams team hfind (by simpa using hid)
        simpa [hn, hd] using this
      · intro t ht hne
        exact frame _ t ht hne
    | some d =>
      unfold update_team
      simp only [hfind, hcheck, hval, hn, hd]
      refine ⟨_, _, rfl, ?_, rfl, rfl, rfl, ?_⟩
      · have := find?_updateFirst (fun t => t.id == team_id)
          (fun _ => { team with description := some d })
          db.teams team hfind (by simpa using hid)
        simpa [hn, hd] using this
      · intro t ht hne
        exact frame _ t ht hne
  | some n =>
    cases hd : data.description with
    | none =>
      unfold update_team
      simp only [hfind, hcheck, hval, hn, hd]
      refine ⟨_, _, rfl, ?_, rfl, rfl, rfl, ?_⟩
      · have := find?_updateFirst (fun t => t.id == team_id)
          (fun _ => { team with name := n })
          db.teams team hfind (by simpa using hid)
        simpa [hn, hd] using this
      · intro t ht hne
        exact frame _ t ht hne
    | some d =>
      unfold update_team
      simp only [hfind, hcheck, hval, hn, hd]
      refine ⟨_, _, rfl, ?_, rfl, rfl, rfl, ?_⟩
      · have := find?_updateFirst (fun t => t.id == team_id)
          (fun _ => { team with name := n, description := some d })
          db.teams team hfind (by simpa using hid)
        simpa [hn, hd] using this
      · intro t ht hne
        exact frame _ t ht hne

def exTeam9 : TeamModel :=
  { id := 1, owner_id := 10, name := "old", description := some "d0",
    team_code := "CODE9", is_active := true, status := TeamStatus.ACTIVE,
    created_at := 0 }

def exDb9 : DB :=
  { teams := [exTeam9],
    members := [{ id := 1, team_id := 1, user_id := 10, role := TeamRole.OWNER }],
    joinRequests := [],
    users := [{ id := 10, name := "ann", username := "ann", email := "ann" }],
    nextId := 2 }

/-- Witness for C9: the owner renames team 1 without touching description
or any other field. -/
theorem update_team_frame_witness :
    ∃ db' resp,
      update_team exDb9 1 10 { name := some "new", description := none } = .ok (db', resp) ∧
      db'.teams.find? (fun t => t.id == 1) = some { exTeam9 with name := "new" } ∧
      db'.members = exDb9.members ∧
      db'.joinRequests = exDb9.joinRequests ∧
      db'.users = exDb9.users ∧
      (∀ t ∈ exDb9.teams, t.id ≠ 1 → t ∈ db'.teams) := by
  exact update_team_frame exDb9 1 10 { name := some "new", description := none }
    exTeam9 { id := 1, team_id := 1, user_id := 10, role := TeamRole.OWNER }
    (by decide) (by decide) (by decide) (Or.inl rfl)

/-- A team 1 (active, owner 10) with a join request 5 from user 20 that was
already DECLINED; user 20 holds no membership row. -/
def exDb4 : DB :=
  { teams := [{ id := 1, owner_id := 10, name := "gamma", description := none,
                team_code := "CODE4", is_active := true,
                status := TeamStatus.ACTIVE, created_at := 0 }],
    members := [{ id := 1, team_id := 1, user_id := 10, role := TeamRole.OWNER }],
    joinRequests := [{ id := 5, team_id := 1, requested_by := 20,
                       status := JoinRequestStatus.DECLINED, reviewed_by := some 10,
                       reviewed_at := some 1, created_at := 0 }],
    users := [{ id := 10, name := "ann", username := "ann", email := "ann" },
              { id := 20, name := "bob", username := "bob", email := "bob" }],
    nextId := 6 }

/-- The store after re-reviewing the DECLINED request 5 with APPROVED. -/
def exDb4After : DB :=
  match review_join_request exDb4 5 10 JoinRequestStatus.APPROVED 99 with
  | .ok (d, _) => d
  | .error _ => exDb4

/-- Whether the re-review of the DECLINED request succeeded. -/
def exDb4ReviewSucceeded : Bool :=
  match review_join_request exDb4 5 10 JoinRequestStatus.APPROVED 99 with
  | .ok _ => true
  | .error _ => false

/-- Counterexample to C4 as stated: request 5 is already DECLINED, yet
`review_join_request` with APPROVED succeeds, flips the status to APPROVED
and inserts a membership row — DECLINED is not terminal. -/
theorem review_terminal_counterexample :
    ((exDb4.joinRequests.find? (fun r => r.id == 5)).map (fun r => r.status)) =
      some JoinRequestStatus.DECLINED ∧
    exDb4ReviewSucceeded = true ∧
    ((exDb4After.joinRequests.find? (fun r => r.id == 5)).map (fun r => r.status)) =
      some JoinRequestStatus.APPROVED ∧
    (exDb4After.members.filter (fun x => x.team_id == 1 && x.user_id == 20)).length = 1 := by
  refine ⟨by decide, by decide, by decide, by decide⟩

/-- C4 (amended): APPROVED and DECLINED are not terminal.
`review_join_request` never inspects the request's current status: under a
live team and an OWNER caller, approving succeeds (flipping any prior
status to APPROVED and inserting a MEMBER row) whenever the requester holds
no membership row, fails `UserAlreadyMember` when one exists, and declining
always succeeds (flipping any prior status to DECLINED, touching no
membership row).  So re-review is blocked only by the membership check on
approve, not by the request's state. -/
theorem review_status_not_checked (db : DB) (request_id caller now : Nat)
    (jr : JoinRequestModel) (team : TeamModel) (m : TeamMemberModel)
    (hjr : db.joinRequests.find? (fun r => r.id == request_id) = some jr)
    (ht : db.teams.find? (fun t => t.id == jr.team_id) = some team)
    (hlive : team.status ≠ TeamStatus.DELETED)
    (hm : db.members.find? (fun x => x.team_id == jr.team_id && x.user_id == caller) = some m)
    (hrole : m.role = TeamRole.OWNER) :
    ((db.members.find? (fun x => x.team_id == jr.team_id && x.user_id == jr.requested_by)).isSome →
      review_join_request db request_id caller JoinRequestStatus.APPROVED now =
        .error .UserAlreadyMember) ∧
    (db.members.find? (fun x => x.team_id == jr.team_id && x.user_id == jr.requested_by) = none →
      ∃ db' resp,
        review_join_request db request_id caller JoinRequestStatus.APPROVED now =
          .ok (db', resp) ∧
        db'.joinRequests.find? (fun r => r.id == request_id) =
          some { jr with
                 status := JoinRequestStatus.APPROVED,
                 reviewed_by := some caller, reviewed_at := some now } ∧
        db'.members.filter (fun x => x.team_id == jr.team_id && x.user_id == jr.requested_by) =
          [{ id := db.nextId, team_id := jr.team_id, user_id := jr.requested_by,
             role := TeamRole.MEMBER }]) ∧
    (∃ db' resp,
        review_join_request db request_id caller JoinRequestStatus.DECLINED now =
          .ok (db', resp) ∧
        db'.members = db.members ∧
        db'.joinRequests.find? (fun r => r.id == request_id) =
          some { jr with
                 status := JoinRequestStatus.DECLINED,
                 reviewed_by := some caller, reviewed_at := some now }) := by
  have hc : ([TeamRole.OWNER].contains m.role) = true := by simp [hrole]
  have hval := validate_team_role_eq_ok hm hc
  have hcheck := check_team_not_deleted_of_ne hlive
  have hrid : (jr.id == request_id) = true := by
    have := List.find?_some hjr
    simpa using this
  have hactA : (!([JoinRequestStatus.APPROVED, JoinRequestStatus.DECLINED].contains
      JoinRequestStatus.APPROVED)) = false := by decide
  have hactD : (!([JoinRequestStatus.APPROVED, JoinRequestStatus.DECLINED].contains
      JoinRequestStatus.DECLINED)) = false := by decide
  have haa : (JoinRequestStatus.APPROVED == JoinRequestStatus.APPROVED) = true := by decide
  have hda : (JoinRequestStatus.DECLINED == JoinRequestStatus.APPROVED) = false := by decide
  refine ⟨?_, ?_, ?_⟩
  · intro hex
    obtain ⟨mm, hmm⟩ := Option.isSome_iff_exists.mp hex
    unfold review_join_request
    simp only [hactA, Bool.false_eq_true, if_false, hjr, ht, hcheck, hval,
               haa, if_true, hmm]
  · intro hnone
    unfold review_join_request
    simp only [hactA, Bool.false_eq_true, if_false, hjr, ht, hcheck, hval,
               haa, if_true, hnone]
    refine ⟨_, _, rfl, ?_, ?_⟩
    · exact find?_updateFirst _ _ db.joinRequests jr hjr (by simpa using hrid)
    · rw [List.filter_append]
      have h1 : db.members.filter
          (fun x => x.team_id == jr.team_id && x.user_id == jr.requested_by) = [] := by
        rw [List.filter_eq_nil_iff]
        rw [List.find?_eq_none] at hnone
        exact hnone
      rw [h1]
      simp
  · unfold review_join_request
    simp only [hactD, Bool.false_eq_true, if_false, hjr, ht, hcheck, hval,
               hda, if_false]
    refine ⟨_, _, rfl, rfl, ?_⟩
    exact find?_updateFirst _ _ db.joinRequests jr hjr (by simpa using hrid)

/-- Witness for the amended C4: on `exDb4` the DECLINED request 5 is
approved successfully, ending APPROVED with a fresh MEMBER row for user 20. -/
theorem review_status_not_checked_witness :
    ∃ db' resp,
      review_join_request exDb4 5 10 JoinRequestStatus.APPROVED 99 = .ok (db', resp) ∧
      db'.joinRequests.find? (fun r => r.id == 5) =
        some { id := 5, team_id := 1, requested_by := 20,
               status := JoinRequestStatus.APPROVED, reviewed_by := some 10,
               reviewed_at := some 99, created_at := 0 } ∧
      db'.members.filter (fun x => x.team_id == 1 && x.user_id == 20) =
        [{ id := 6, team_id := 1, user_id := 20, role := TeamRole.MEMBER }] := by
  exact (review_status_not_checked exDb4 5 10 99
    { id := 5, team_id := 1, requested_by := 20, status := JoinRequestStatus.DECLINED,
      reviewed_by := some 10, reviewed_at := some 1, created_at := 0 }
    { id := 1, owner_id := 10, name := "gamma", description := none,
      team_code := "CODE4", is_active := true, status := TeamStatus.ACTIVE,
      created_at := 0 }
    { id := 1, team_id := 1, user_id := 10, role := TeamRole.OWNER }
    (by decide) (by decide) (by decide) (by decide) rfl).2.1 (by decide)

/-- C7: re-join after removal.  A successful
`remove_member_from_team db team_id u.id caller` leaves no membership row
and no APPROVED join-request row for (team, u); provided u held no PENDING
request beforehand, a subsequent `create_join_request` by u with the team's
code succeeds and inserts a fresh PENDING row. -/
theorem rejoin_after_removal (db db' : DB) (team_id caller : Nat)
    (u : UserModel) (code : String) (team : TeamModel) (now : Nat)
    (hid : db.teams.find? (fun t => t.id == team_id) = some team)
    (hcode : db.teams.find? (fun t => t.team_code == code) = some team)
    (hnp : db.joinRequests.find? (fun r => r.team_id == team.id && r.requested_by == u.id &&
        r.status == JoinRequestStatus.PENDING) = none)
    (hrm : remove_member_from_team db team_id u.id caller = .ok db') :
    db'.members.find? (fun m => m.team_id == team_id && m.user_id == u.id) = none ∧
    db'.joinRequests.find? (fun r => r.team_id == team_id && r.requested_by == u.id &&
        r.status == JoinRequestStatus.APPROVED) = none ∧
    create_join_request db' code u now =
      .ok ({ db' with
             joinRequests := db'.joinRequests ++
               [{ id := db'.nextId, team_id := team.id, requested_by := u.id,
                  status := JoinRequestStatus.PENDING, reviewed_by := none,
                  reviewed_at := none, created_at := now }],
             nextId := db'.nextId + 1 },
           join_request_response team u
             { id := db'.nextId, team_id := team.id, requested_by := u.id,
               status := JoinRequestStatus.PENDING, reviewed_by := none,
               reviewed_at := none, created_at := now }) := by
  obtain ⟨team0, tm, hid0, hlive0, hfind0, hrole0, hdb⟩ := remove_ok_shape hrm
  rw [hid0] at hid
  injection hid with hteam0
  rw [hteam0] at hid0 hlive0
  have hdbT : db'.teams = db.teams := by rw [hdb]
  have hdbM : db'.members = db.members.filter (fun m =>
      !(m.team_id == team_id && m.user_id == u.id)) := by rw [hdb]
  have hdbJ : db'.joinRequests = db.joinRequests.filter (fun r =>
      !(r.team_id == team_id && r.requested_by == u.id &&
        r.status == JoinRequestStatus.APPROVED)) := by rw [hdb]
  have htid' : team.id = team_id := by
    have := List.find?_some hid0
    simpa using this
  refine ⟨?_, ?_, ?_⟩
  · rw [hdbM]
    exact find?_filter_not_none _ _
  · rw [hdbJ]
    exact find?_filter_not_none _ _
  · apply create_ok_of_checks db' code u now team (by rw [hdbT]; exact hcode) hlive0
    · rw [hdbJ]
      exact find?_filter_none _ _ _ hnp
    · rw [hdbM]
      simp only [htid']
      exact find?_filter_not_none _ _

/-- Team 1 with code CODE7: owner 10, member 20 whose join request 6 was
APPROVED; nothing PENDING. -/
def exTeam7 : TeamModel :=
  { id := 1, owner_id := 10, name := "delta", description := none,
    team_code := "CODE7", is_active := true, status := TeamStatus.ACTIVE,
    created_at := 0 }

def exUser7 : UserModel := { id := 20, name := "bob", username := "bob", email := "bob" }

def exDb7 : DB :=
  { teams := [exTeam7],
    members := [{ id := 1, team_id := 1, user_id := 10, role := TeamRole.OWNER },
                { id := 2, team_id := 1, user_id := 20, role := TeamRole.MEMBER }],
    joinRequests := [{ id := 6, team_id := 1, requested_by := 20,
                       status := JoinRequestStatus.APPROVED, reviewed_by := some 10,
                       reviewed_at := some 1, created_at := 0 }],
    users := [{ id := 10, name := "ann", username := "ann", email := "ann" }, exUser7],
    nextId := 7 }

/-- The store after owner 10 removes member 20 from team 1. -/
def exDb7After : DB :=
  match remove_member_from_team exDb7 1 20 10 with
  | .ok d => d
  | .error _ => exDb7

/-- Witness for C7: after the removal of user 20, both their membership row
and their APPROVED request are gone, and re-joining with CODE7 succeeds. -/
theorem rejoin_after_removal_witness :
    exDb7After.members.find? (fun m => m.team_id == 1 && m.user_id == 20) = none ∧
    exDb7After.joinRequests.find? (fun r => r.team_id == 1 && r.requested_by == 20 &&
        r.status == JoinRequestStatus.APPROVED) = none ∧
    create_join_request exDb7After "CODE7" exUser7 9 =
      .ok ({ exDb7After with
             joinRequests := exDb7After.joinRequests ++
               [{ id := exDb7After.nextId, team_id := exTeam7.id, requested_by := exUser7.id,
                  status := JoinRequestStatus.PENDING, reviewed_by := none,
                  reviewed_at := none, created_at := 9 }],
             nextId := exDb7After.nextId + 1 },
           join_request_response exTeam7 exUser7
             { id := exDb7After.nextId, team_id := exTeam7.id, requested_by := exUser7.id,
               status := JoinRequestStatus.PENDING, reviewed_by := none,
               reviewed_at := none, created_at := 9 }) := by
  exact rejoin_after_removal exDb7 exDb7After 1 10 exUser7 "CODE7" exTeam7 9
    (by decide) (by decide) (by decide) (by decide)

/-- Team 1 with code CODE5 (owner 10); user 20 has neither a request nor a
membership — the precondition of the join-request race scenario. -/
def exTeam5 : TeamModel :=
  { id := 1, owner_id := 10, name := "eps", description := none,
    team_code := "CODE5", is_active := true, status := TeamStatus.ACTIVE,
    created_at := 0 }

def exUser5 : UserModel := { id := 20, name := "bob", username := "bob", email := "bob" }

def exDb5 : DB :=
  { teams := [exTeam5],
    members := [{ id := 1, team_id := 1, user_id := 10, role := TeamRole.OWNER }],
    joinRequests := [],
    users := [{ id := 10, name := "ann", username := "ann", email := "ann" }, exUser5],
    nextId := 8 }

/-- The committed store of the call that wins the race. -/
def exDb5Winner : DB :=
  match (race_two_create_calls exDb5 "CODE5" exUser5 3 4).1 with
  | .ok (d, _) => d
  | .error _ => exDb5

/-- Whether the winning call of the race succeeded. -/
def exDb5WinnerOk : Bool :=
  match (race_two_create_calls exDb5 "CODE5" exUser5 3 4).1 with
  | .ok _ => true
  | .error _ => false

/-- C5: in the racing schedule, exactly one PENDING row is created — the
storage partial-unique constraint breaks the race — but the losing call's
constraint violation escapes `create_join_request` as the raw storage
`IntegrityError`: the service contains no handler translating it into
`DuplicateJoinRequest`, so the loser does not see the business error the
spec requires at the application boundary. -/
theorem join_request_race_untranslated :
    exDb5WinnerOk = true ∧
    (exDb5Winner.joinRequests.filter (fun r => r.team_id == 1 && r.requested_by == 20 &&
        r.status == JoinRequestStatus.PENDING)).length = 1 ∧
    (race_two_create_calls exDb5 "CODE5" exUser5 3 4).2 = .error .IntegrityError ∧
    (race_two_create_calls exDb5 "CODE5" exUser5 3 4).2 ≠ .error .DuplicateJoinRequest := by
  refine ⟨by decide, by decide, by decide, by decide⟩

/-- C8: `TeamService` defines no `get_join_request_by_id` method, so the
controller route `get_join_request`, which calls
`service.get_join_request_by_id(request_id, user)`, hits an undefined
attribute for every request instead of returning a join-request view or
`UnauthorizedAccess`. -/
theorem get_join_request_missing_method :
    "get_join_request_by_id" ∉ teamServiceMethods ∧
    resolveServiceMethod "get_join_request_by_id" = none ∧
    (∀ request_id user_id : Nat,
      get_join_request_controller_call request_id user_id =
        .attributeError "get_join_request_by_id") := by
  refine ⟨by decide, by decide, fun r u => rfl⟩

/-- C10: the `TeamModel` entity declares no `status` column — its declared
persistent fields are exactly `teamModelDeclaredColumns` — so over the
declared schema the deleted check of `_check_team_not_deleted` reads an
undefined attribute for every team row, and building the
`load_only(TeamModel.id, TeamModel.status)` query of `list_team_members`
fails the same way, before any named business error can be reached. -/
theorem team_status_not_mapped :
    "status" ∉ teamModelDeclaredColumns ∧
    teamModelResolveAttr "status" = none ∧
    (∀ t : DeclaredTeamRow,
      t.getattr "status" = none ∧
      check_team_not_deleted_declared t = .attributeError "status") ∧
    (∀ team_id : Nat,
      list_team_members_declared_query team_id = .attributeError "status") := by
  exact ⟨by decide, by decide, fun t => ⟨rfl, rfl⟩, fun tid => rfl⟩

end FlyingBuild
